import Mathlib

/-!
# `Action.Insert` of gopass (`action/insert.go`)

A shallow embedding of the `insert` command: the function `Action.Insert`
is translated branch by branch, every call it makes to a collaborator (the
store, the prompts, the editor, the `secret` package, standard input) is
answered by a field of a record and recorded, in order, in the trace of the
run.

Conventions.
* Go `string` and `[]byte` values are both `String`; the conversions
  `[]byte(pw)` and `string(content)` are the identity on the bytes and are the
  identity here.
* A Go `error` returned by a collaborator is represented by its message.
* `fmt.Sprintf` with `%s` is string concatenation.
* The `context.Context` argument handed on to collaborators is not modelled,
  except for the one thing `Insert` reads off it, `ctxutil.IsInteractive`.
-/

namespace Gopass

/-! ## Data model -/

/-- A Go `error` value returned by a collaborator, by its message. -/
abbrev GoError := String

/-- Modelled from the spec: the type `secret.Secret` (package `store/secret`) is
not under src. Spec section 3: a secret is a primary line and an ordered mapping
of additional key/value fields. -/
structure Secret where
  password : String
  fields : List (String × String)
  deriving DecidableEq

/-- Modelled from the spec: `secret.New` is not under src. Spec section 4.3,
`newFromPassword(value)`: primary line = value, empty field mapping. Both call
sites in `Insert` pass the empty body, `secret.New("", "")` and
`secret.New(pw, "")`. -/
def Secret.newFromPassword (value : String) : Secret := ⟨value, []⟩

/-- Modelled from the spec: `Secret.Password` is not under src; it reads the
primary line. -/
def Secret.Password (sec : Secret) : String := sec.password

/-- Lookup of a field of a secret: the first binding of the key. -/
def Secret.value (sec : Secret) (key : String) : Option String :=
  (sec.fields.find? (fun kv => kv.1 == key)).map (fun kv => kv.2)

/-- Set or overwrite one key of a field mapping, every other binding kept. -/
def setField : List (String × String) → String → String → List (String × String)
  | [], key, value => [(key, value)]
  | (k, v) :: rest, key, value =>
      if k == key then (key, value) :: rest else (k, v) :: setField rest key value

/-- Modelled from the spec: the successful result of `Secret.SetValue`, which is
not under src. Spec sections 4.3 and 8, `patchField(secret, key, value)`: the
fields with `key` set or overwritten to `value`, all other fields unchanged (the
primary line is not a field). -/
def Secret.patchField (sec : Secret) (key value : String) : Secret :=
  ⟨sec.password, setField sec.fields key value⟩

/-- The exit codes `Insert` hands to `exitError`. The constants are declared in
another file of the package; only their names are used here. -/
inductive ExitCode
  | ExitNoName
  | ExitIO
  | ExitEncrypt
  | ExitAborted
  | ExitUnknown
  deriving DecidableEq

/-- The error `Insert` returns: an exit code and the formatted message. -/
structure ExitError where
  code : ExitCode
  message : String
  deriving DecidableEq

/-- The call `s.exitError(ctx, exitCode, err, format, args...)`: the error
returned to the command line carries the exit code and the formatted message
(the `err` argument is already interpolated in the message by every caller). -/
def exitError (exitCode : ExitCode) (message : String) : Option ExitError :=
  some ⟨exitCode, message⟩

/-- The recipient-confirmation callback handed to `Store.SetConfirm`: the only
function value `Insert` ever passes is `s.confirmRecipients`. -/
inductive ConfirmFn
  | confirmRecipients
  deriving DecidableEq

/-- The prompt function handed to `askForPassword`: the only function value
`Insert` ever passes is the closure of lines 116-118, which calls
`s.askForString(prompt, "")`. -/
inductive PromptFn
  | askForStringPrompt
  deriving DecidableEq

/-- The calls `Insert` makes to its collaborators, with their arguments. -/
inductive Event
  | StdinStat
  | StdinCopy
  | AskForString (prompt dflt : String)
  | StoreExists (name : String)
  | StoreGet (name : String)
  | SetValue (sec : Secret) (key value : String)
  | StoreSet (name : String) (sec : Secret) (msg : String)
  | Parse (content : String)
  | StoreSetConfirm (name : String) (sec : Secret) (msg : String)
      (confirm : Option ConfirmFn)
  | AskForConfirmation (msg : String)
  | Editor (content : String)
  | AskForPassword (name : String) (promptFn : Option PromptFn)
  | PrintAuditResult (password : String)
  deriving DecidableEq

/-- The field `s.Store`: answers of the store to the four calls `Insert` makes.
A Go `error` result is `none` for `nil`. -/
structure Store where
  Exists : String → Bool
  Get : String → Except GoError Secret
  Set : String → Secret → String → Option GoError
  SetConfirm : String → Secret → String → Option ConfirmFn → Option GoError

/-- The receiver `s *Action`: its name, its store and its prompt and editor
methods. -/
structure Action where
  Name : String
  Store : Gopass.Store
  askForString : String → String → Except GoError String
  askForConfirmation : String → Bool
  askForPassword : String → Option PromptFn → Except GoError String
  editor : String → Except GoError String

/-- The process environment and the `secret` package functions `Insert` calls:
`os.Stdin.Stat()` (the file mode bits, or an error), `io.Copy(buf, os.Stdin)`
(the drained bytes, or the count written and an error), `os.Getenv("EDITOR")`,
`secret.Parse` and `Secret.SetValue` (the updated secret, or an error). -/
structure Env where
  stdinStat : Except GoError Nat
  stdinCopy : Except (Nat × GoError) String
  getenvEDITOR : String
  Parse : String → Except GoError Secret
  SetValue : Secret → String → String → Except GoError Secret

/-- The argument `ctx context.Context`, as far as `Insert` reads it. -/
structure Context where
  IsInteractive : Bool

/-- The argument `c *cli.Context`: the three flags and the positional
arguments. -/
structure CliContext where
  echo : Bool
  multiline : Bool
  force : Bool
  Args : List String

/-- The call `c.Args().Get(i)`: the i-th argument, the empty string when there
is none. -/
def CliContext.Get (c : CliContext) (i : Nat) : String := c.Args.getD i ""

/-- The constant `os.ModeCharDevice`, bit 21 of a file mode. -/
def ModeCharDevice : Nat := 2 ^ 21

/-- The outcome of a run: the returned error (`none` for `nil`) and the calls
made, in order. -/
structure Result where
  err : Option ExitError
  trace : List Event
  deriving DecidableEq

/-- Put the calls made so far in front of the calls of the rest of the run. -/
def Result.after (pre : List Event) (r : Result) : Result :=
  ⟨r.err, pre ++ r.trace⟩

/-! ## `Insert` -/

open Event in
/-- Lines 71-77: set the key of `sec` and write it with `Store.Set`. -/
def Insert.setAndStore (s : Action) (env : Env) (name key content : String)
    (sec : Secret) : Result :=
  match env.SetValue sec key content with
  | .error err =>
      ⟨exitError ExitCode.ExitEncrypt
          ("failed to set key '" ++ key ++ "' of '" ++ name ++ "': " ++ err),
        [SetValue sec key content]⟩
  | .ok sec' =>
      match s.Store.Set name sec' "Inserted YAML value from STDIN" with
      | some err =>
          ⟨exitError ExitCode.ExitEncrypt
              ("failed to set key '" ++ key ++ "' of '" ++ name ++ "': " ++ err),
            [SetValue sec key content,
             StoreSet name sec' "Inserted YAML value from STDIN"]⟩
      | none =>
          ⟨none,
            [SetValue sec key content,
             StoreSet name sec' "Inserted YAML value from STDIN"]⟩

open Event in
/-- Lines 63-77: start from `secret.New("", "")`, or from the stored secret when
the name exists, then set the key and write. -/
def Insert.loadAndStore (s : Action) (env : Env) (name key content : String) :
    Result :=
  if s.Store.Exists name then
    match s.Store.Get name with
    | .error err =>
        ⟨exitError ExitCode.ExitEncrypt
            ("failed to set key '" ++ key ++ "' of '" ++ name ++ "': " ++ err),
          [StoreExists name, StoreGet name]⟩
    | .ok sec =>
        (Insert.setAndStore s env name key content sec).after
          [StoreExists name, StoreGet name]
  else
    (Insert.setAndStore s env name key content (Secret.newFromPassword "")).after
      [StoreExists name]

open Event in
/-- Lines 54-78, the branch `key != ""`: the value is the piped content, or a
string asked from the user when nothing was piped. -/
def Insert.keyBranch (s : Action) (env : Env) (name key : String)
    (fromStdin : Bool) (content : String) : Result :=
  if !fromStdin then
    match s.askForString (name ++ ":" ++ key) "" with
    | .error err =>
        ⟨exitError ExitCode.ExitIO ("failed to ask for user input: " ++ err),
          [AskForString (name ++ ":" ++ key) ""]⟩
    | .ok pw =>
        (Insert.loadAndStore s env name key pw).after
          [AskForString (name ++ ":" ++ key) ""]
  else
    Insert.loadAndStore s env name key content

open Event in
/-- Lines 80-89, the branch `fromStdin`: parse the piped content and write it
with `Store.SetConfirm`. -/
def Insert.stdinBranch (s : Action) (env : Env) (name : String)
    (confirm : Option ConfirmFn) (content : String) : Result :=
  match env.Parse content with
  | .error err =>
      ⟨exitError ExitCode.ExitEncrypt ("failed to set '" ++ name ++ "': " ++ err),
        [Parse content]⟩
  | .ok sec =>
      match s.Store.SetConfirm name sec "Read secret from STDIN" confirm with
      | some err =>
          ⟨exitError ExitCode.ExitEncrypt
              ("failed to set '" ++ name ++ "': " ++ err),
            [Parse content, StoreSetConfirm name sec "Read secret from STDIN" confirm]⟩
      | none =>
          ⟨none,
            [Parse content, StoreSetConfirm name sec "Read secret from STDIN" confirm]⟩

open Event in
/-- Lines 99-110, the body of `if multiline && ctxutil.IsInteractive(ctx)`: run
the editor on empty content, parse what it returns and write it. -/
def Insert.editorBranch (s : Action) (env : Env) (name : String)
    (confirm : Option ConfirmFn) : Result :=
  match s.editor "" with
  | .error err =>
      ⟨exitError ExitCode.ExitUnknown ("failed to start editor: " ++ err),
        [Editor ""]⟩
  | .ok content =>
      match env.Parse content with
      | .error err =>
          ⟨exitError ExitCode.ExitUnknown ("failed to parse secret: " ++ err),
            [Editor "", Parse content]⟩
      | .ok sec =>
          match s.Store.SetConfirm name sec
              ("Inserted user supplied password with " ++ env.getenvEDITOR) confirm with
          | some err =>
              ⟨exitError ExitCode.ExitEncrypt
                  ("failed to store secret '" ++ name ++ "': " ++ err),
                [Editor "", Parse content,
                 StoreSetConfirm name sec
                   ("Inserted user supplied password with " ++ env.getenvEDITOR) confirm]⟩
          | none =>
              ⟨none,
                [Editor "", Parse content,
                 StoreSetConfirm name sec
                   ("Inserted user supplied password with " ++ env.getenvEDITOR) confirm]⟩

open Event in
/-- Lines 113-132: ask for the password (with the plain prompt function when
`echo` is set, with none otherwise), build the secret, report its strength and
write it. -/
def Insert.passwordBranch (s : Action) (name : String)
    (confirm : Option ConfirmFn) (echo : Bool) : Result :=
  let promptFn : Option PromptFn :=
    if echo then some PromptFn.askForStringPrompt else none
  match s.askForPassword name promptFn with
  | .error err =>
      ⟨exitError ExitCode.ExitIO ("failed to ask for password: " ++ err),
        [AskForPassword name promptFn]⟩
  | .ok pw =>
      let sec := Secret.newFromPassword pw
      match s.Store.SetConfirm name sec "Inserted user supplied password" confirm with
      | some err =>
          ⟨exitError ExitCode.ExitEncrypt
              ("failed to write secret '" ++ name ++ "': " ++ err),
            [AskForPassword name promptFn, PrintAuditResult sec.Password,
             StoreSetConfirm name sec "Inserted user supplied password" confirm]⟩
      | none =>
          ⟨none,
            [AskForPassword name promptFn, PrintAuditResult sec.Password,
             StoreSetConfirm name sec "Inserted user supplied password" confirm]⟩

/-- Lines 97-132: the editor when `multiline && ctxutil.IsInteractive(ctx)`, the
password prompt otherwise. -/
def Insert.editorOrPassword (s : Action) (env : Env) (ctx : Context)
    (name : String) (confirm : Option ConfirmFn) (echo multiline : Bool) : Result :=
  if multiline && ctx.IsInteractive then
    Insert.editorBranch s env name confirm
  else
    Insert.passwordBranch s name confirm echo

open Event in
/-- Lines 91-132: the overwrite check when `force` is not set (`Exists` first,
the confirmation question only when the name exists), then the editor or the
password prompt. -/
def Insert.interactive (s : Action) (env : Env) (ctx : Context) (name : String)
    (confirm : Option ConfirmFn) (echo multiline force : Bool) : Result :=
  if !force then
    if s.Store.Exists name then
      if !s.askForConfirmation
          ("An entry already exists for " ++ name ++ ". Overwrite it?") then
        ⟨exitError ExitCode.ExitAborted "not overwriting your current secret",
          [StoreExists name,
           AskForConfirmation
             ("An entry already exists for " ++ name ++ ". Overwrite it?")]⟩
      else
        (Insert.editorOrPassword s env ctx name confirm echo multiline).after
          [StoreExists name,
           AskForConfirmation
             ("An entry already exists for " ++ name ++ ". Overwrite it?")]
    else
      (Insert.editorOrPassword s env ctx name confirm echo multiline).after
        [StoreExists name]
  else
    Insert.editorOrPassword s env ctx name confirm echo multiline

/-- Lines 53-132: what `Insert` does once standard input has been read. -/
def Insert.fromContent (s : Action) (env : Env) (ctx : Context) (name key : String)
    (confirm : Option ConfirmFn) (echo multiline force : Bool)
    (fromStdin : Bool) (content : String) : Result :=
  if key ≠ "" then
    Insert.keyBranch s env name key fromStdin content
  else if fromStdin then
    Insert.stdinBranch s env name confirm content
  else
    Insert.interactive s env ctx name confirm echo multiline force

open Event in
/-- The function `Action.Insert` (lines 16-133). -/
def Insert (s : Action) (env : Env) (ctx : Context) (c : CliContext) : Result :=
  let echo := c.echo
  let multiline := c.multiline
  let force := c.force
  let confirm : Option ConfirmFn :=
    if force then none else some ConfirmFn.confirmRecipients
  let name := c.Get 0
  if name = "" then
    ⟨exitError ExitCode.ExitNoName ("Usage: " ++ s.Name ++ " insert name"), []⟩
  else
    let key := c.Get 1
    match env.stdinStat with
    | .error err =>
        ⟨exitError ExitCode.ExitIO ("failed to stat stdin: " ++ err), [StdinStat]⟩
    | .ok mode =>
        if mode &&& ModeCharDevice = 0 then
          match env.stdinCopy with
          | .error (written, err) =>
              ⟨exitError ExitCode.ExitIO
                  ("failed to copy after " ++ toString written ++ " bytes: " ++ err),
                [StdinStat, StdinCopy]⟩
          | .ok buf =>
              (Insert.fromContent s env ctx name key confirm echo multiline force
                true buf).after [StdinStat, StdinCopy]
        else
          (Insert.fromContent s env ctx name key confirm echo multiline force
            false "").after [StdinStat]

/-! ## Observations on a trace -/

/-- A store write: `Store.Set` or `Store.SetConfirm`. -/
def Event.isWrite : Event → Bool
  | .StoreSet _ _ _ => true
  | .StoreSetConfirm _ _ _ _ => true
  | _ => false

/-- The overwrite machinery of lines 91-95: the existence query and the
confirmation question. -/
def Event.isOverwriteCheck : Event → Bool
  | .StoreExists _ => true
  | .AskForConfirmation _ => true
  | _ => false

/-- The call `askForConfirmation`. -/
def Event.isAskForConfirmation : Event → Bool
  | .AskForConfirmation _ => true
  | _ => false

/-- The call `s.editor`. -/
def Event.isEditor : Event → Bool
  | .Editor _ => true
  | _ => false

/-- The call `s.askForPassword`. -/
def Event.isAskForPassword : Event → Bool
  | .AskForPassword _ _ => true
  | _ => false

/-- The same call with the confirm callback of a `Store.SetConfirm` left out. -/
def Event.withoutConfirm : Event → Event
  | .StoreSetConfirm name sec msg _ => .StoreSetConfirm name sec msg none
  | e => e

/-- Whether the call, as answered by the collaborators, failed: it returned an
error or, for the overwrite question, the answer no. The existence query and the
strength report cannot fail. -/
def callFailed (s : Action) (env : Env) : Event → Bool
  | .StdinStat => !env.stdinStat.toBool
  | .StdinCopy => !env.stdinCopy.toBool
  | .AskForString prompt dflt => !(s.askForString prompt dflt).toBool
  | .StoreExists _ => false
  | .StoreGet name => !(s.Store.Get name).toBool
  | .SetValue sec key value => !(env.SetValue sec key value).toBool
  | .StoreSet name sec msg => (s.Store.Set name sec msg).isSome
  | .Parse content => !(env.Parse content).toBool
  | .StoreSetConfirm name sec msg confirm =>
      (s.Store.SetConfirm name sec msg confirm).isSome
  | .AskForConfirmation msg => !s.askForConfirmation msg
  | .Editor content => !(s.editor content).toBool
  | .AskForPassword name promptFn => !(s.askForPassword name promptFn).toBool
  | .PrintAuditResult _ => false

/-- The exit code `Insert` returns when the call `call` fails, `afterEditor`
telling whether the editor was run before it: the table of the fifteen
`exitError` calls of the function, but for the missing name (which fails before
any call). The existence query and the strength report never fail. -/
def stepCode (afterEditor : Bool) : Event → Option ExitCode
  | .StdinStat => some ExitCode.ExitIO
  | .StdinCopy => some ExitCode.ExitIO
  | .AskForString _ _ => some ExitCode.ExitIO
  | .AskForPassword _ _ => some ExitCode.ExitIO
  | .StoreGet _ => some ExitCode.ExitEncrypt
  | .SetValue _ _ _ => some ExitCode.ExitEncrypt
  | .StoreSet _ _ _ => some ExitCode.ExitEncrypt
  | .StoreSetConfirm _ _ _ _ => some ExitCode.ExitEncrypt
  | .Parse _ => some (if afterEditor then ExitCode.ExitUnknown else ExitCode.ExitEncrypt)
  | .Editor _ => some ExitCode.ExitUnknown
  | .AskForConfirmation _ => some ExitCode.ExitAborted
  | .StoreExists _ => none
  | .PrintAuditResult _ => none

/-- The exit code of a failed run by its last call, the one that failed:
`ExitNoName` when no call was made, `stepCode` of the last call otherwise. -/
def failureCode (tr : List Event) : Option ExitCode :=
  match tr.getLast? with
  | none => some ExitCode.ExitNoName
  | some last => stepCode (tr.any Event.isEditor) last

/-- A run whose outcome is decided by its last call: no call before the last is
a store write; a run without error ends in a store write that succeeded; a run
with an error ends in a call that failed, and its exit code is the one of the
table for that call. -/
def Result.EndsAtLast (s : Action) (env : Env) (r : Result) : Prop :=
  (∀ e ∈ r.trace.dropLast, e.isWrite = false) ∧
  ∃ last, r.trace.getLast? = some last ∧
    (r.err = none → last.isWrite = true ∧ callFailed s env last = false) ∧
    (∀ e, r.err = some e →
      callFailed s env last = true ∧ failureCode r.trace = some e.code)

/-- A stored secret with one field. -/
def sampleSecret : Secret := ⟨"hunter2", [("user", "bob")]⟩

/-- A store in which every name exists (or none does), holding `sampleSecret`,
and whose writes succeed. -/
def sampleStore (present : Bool) : Store where
  Exists := fun _ => present
  Get := fun _ => .ok sampleSecret
  Set := fun _ _ _ => none
  SetConfirm := fun _ _ _ _ => none

/-- An action over `sampleStore`: the string prompt answers "alice", the password
prompt "s3cret", the editor returns "edited", the overwrite question is answered
by `answer`. -/
def sampleAction (present answer : Bool) : Action where
  Name := "gopass"
  Store := sampleStore present
  askForString := fun _ _ => .ok "alice"
  askForConfirmation := fun _ => answer
  askForPassword := fun _ _ => .ok "s3cret"
  editor := fun _ => .ok "edited"

/-- A parser that accepts everything but the text "bad": the content becomes the
primary line. -/
def sampleParse (content : String) : Except GoError Secret :=
  if content = "bad" then .error "malformed" else .ok ⟨content, []⟩

/-- A `SetValue` that refuses the key "reserved" and otherwise patches the
field. -/
def sampleSetValue (sec : Secret) (key value : String) : Except GoError Secret :=
  if key = "reserved" then .error "invalid key" else .ok (sec.patchField key value)

/-- A process whose standard input has file mode `mode` and holds `piped`. -/
def sampleEnv (mode : Nat) (piped : String) : Env where
  stdinStat := .ok mode
  stdinCopy := .ok piped
  getenvEDITOR := "vi"
  Parse := sampleParse
  SetValue := sampleSetValue

/-! ## Lemmas -/

open Event

@[simp] theorem Result.after_trace (pre : List Event) (r : Result) :
    (r.after pre).trace = pre ++ r.trace := rfl

/-- After `setField`, the key is bound to the new value. -/
theorem find_setField_same (fields : List (String × String)) (key value : String) :
    ((setField fields key value).find? (fun kv => kv.1 == key)).map (fun kv => kv.2)
      = some value := by
  induction fields with
  | nil => simp [setField]
  | cons kv rest ih =>
      obtain ⟨k, v⟩ := kv
      by_cases h : k = key
      · simp [setField, h]
      · simp [setField, h, List.find?_cons, ih]

/-- After `setField`, every other key is bound as before. -/
theorem find_setField_other (fields : List (String × String)) (key value k' : String)
    (hk : k' ≠ key) :
    ((setField fields key value).find? (fun kv => kv.1 == k')).map (fun kv => kv.2)
      = (fields.find? (fun kv => kv.1 == k')).map (fun kv => kv.2) := by
  induction fields with
  | nil => simp [setField, List.find?_cons, Ne.symm hk]
  | cons kv rest ih =>
      obtain ⟨k, v⟩ := kv
      by_cases h : k = key
      · subst h
        simp [setField, List.find?_cons, Ne.symm hk]
      · by_cases h' : k = k'
        · subst h'
          simp [setField, hk, List.find?_cons]
        · simp [setField, h, List.find?_cons, h', ih]

/-! ## Every run is decided by its last call -/

/-- Calls made before a run that is decided by its last call, none of them a
write or the editor, leave it so. -/
theorem Result.EndsAtLast.after {s : Action} {env : Env} {r : Result}
    (h : r.EndsAtLast s env) (pre : List Event)
    (hpre : ∀ e ∈ pre, e.isWrite = false ∧ e.isEditor = false) :
    (r.after pre).EndsAtLast s env := by
  obtain ⟨h1, last, hl, h2, h3⟩ := h
  have hne : r.trace ≠ [] := by
    intro h0
    rw [h0] at hl
    cases hl
  have hlast : (pre ++ r.trace).getLast? = some last := by
    rw [List.getLast?_append_of_ne_nil _ hne, hl]
  have hany : (pre ++ r.trace).any Event.isEditor = r.trace.any Event.isEditor := by
    have : pre.any Event.isEditor = false := by
      rw [List.any_eq_false]
      intro e he
      simp [(hpre e he).2]
    rw [List.any_append, this, Bool.false_or]
  refine ⟨?_, last, hlast, h2, ?_⟩
  · intro e he
    rw [Result.after_trace, List.dropLast_append_of_ne_nil pre hne, List.mem_append] at he
    rcases he with he | he
    · exact (hpre e he).1
    · exact h1 e he
  · intro e he
    refine ⟨(h3 e he).1, ?_⟩
    have := (h3 e he).2
    simp only [failureCode, Result.after_trace, hlast, hany, hl] at this ⊢
    exact this

theorem Insert.setAndStore_endsAtLast (s : Action) (env : Env)
    (name key content : String) (sec : Secret) :
    (Insert.setAndStore s env name key content sec).EndsAtLast s env := by
  unfold Insert.setAndStore
  split
  · simp [Result.EndsAtLast, callFailed, failureCode, stepCode, exitError, Except.toBool, *]
  · split <;>
      simp [Result.EndsAtLast, callFailed, failureCode, stepCode, exitError,
        Event.isWrite, Event.isEditor, *]

theorem Insert.loadAndStore_endsAtLast (s : Action) (env : Env)
    (name key content : String) :
    (Insert.loadAndStore s env name key content).EndsAtLast s env := by
  unfold Insert.loadAndStore
  split
  · split
    · simp [Result.EndsAtLast, callFailed, failureCode, stepCode, exitError,
        Except.toBool, Event.isWrite, *]
    · exact (Insert.setAndStore_endsAtLast s env name key content _).after _
        (by simp [Event.isWrite, Event.isEditor])
  · exact (Insert.setAndStore_endsAtLast s env name key content _).after _
      (by simp [Event.isWrite, Event.isEditor])

theorem Insert.keyBranch_endsAtLast (s : Action) (env : Env) (name key : String)
    (fromStdin : Bool) (content : String) :
    (Insert.keyBranch s env name key fromStdin content).EndsAtLast s env := by
  unfold Insert.keyBranch
  split
  · split
    · simp [Result.EndsAtLast, callFailed, failureCode, stepCode, exitError,
        Except.toBool, *]
    · exact (Insert.loadAndStore_endsAtLast s env name key _).after _
        (by simp [Event.isWrite, Event.isEditor])
  · exact Insert.loadAndStore_endsAtLast s env name key content

theorem Insert.stdinBranch_endsAtLast (s : Action) (env : Env) (name : String)
    (confirm : Option ConfirmFn) (content : String) :
    (Insert.stdinBranch s env name confirm content).EndsAtLast s env := by
  unfold Insert.stdinBranch
  split
  · simp [Result.EndsAtLast, callFailed, failureCode, stepCode, exitError,
      Except.toBool, Event.isEditor, *]
  · split <;>
      simp [Result.EndsAtLast, callFailed, failureCode, stepCode, exitError,
        Event.isWrite, Event.isEditor, *]

theorem Insert.editorBranch_endsAtLast (s : Action) (env : Env) (name : String)
    (confirm : Option ConfirmFn) :
    (Insert.editorBranch s env name confirm).EndsAtLast s env := by
  unfold Insert.editorBranch
  split
  · simp [Result.EndsAtLast, callFailed, failureCode, stepCode, exitError,
      Except.toBool, Event.isEditor, *]
  · split
    · simp [Result.EndsAtLast, callFailed, failureCode, stepCode, exitError,
        Except.toBool, Event.isEditor, Event.isWrite, *]
    · split <;>
        simp [Result.EndsAtLast, callFailed, failureCode, stepCode, exitError,
          Event.isWrite, Event.isEditor, *]

theorem Insert.passwordBranch_endsAtLast (s : Action) (name : String) (env : Env)
    (confirm : Option ConfirmFn) (echo : Bool) :
    (Insert.passwordBranch s name confirm echo).EndsAtLast s env := by
  unfold Insert.passwordBranch
  dsimp only
  split
  · simp [Result.EndsAtLast, callFailed, failureCode, stepCode, exitError,
      Except.toBool, Event.isEditor, *]
  · split <;>
      simp [Result.EndsAtLast, callFailed, failureCode, stepCode, exitError,
        Event.isWrite, Event.isEditor, *]

theorem Insert.editorOrPassword_endsAtLast (s : Action) (env : Env) (ctx : Context)
    (name : String) (confirm : Option ConfirmFn) (echo multiline : Bool) :
    (Insert.editorOrPassword s env ctx name confirm echo multiline).EndsAtLast s env := by
  unfold Insert.editorOrPassword
  split
  · exact Insert.editorBranch_endsAtLast s env name confirm
  · exact Insert.passwordBranch_endsAtLast s name env confirm echo

theorem Insert.interactive_endsAtLast (s : Action) (env : Env) (ctx : Context)
    (name : String) (confirm : Option ConfirmFn) (echo multiline force : Bool) :
    (Insert.interactive s env ctx name confirm echo multiline force).EndsAtLast s env := by
  unfold Insert.interactive
  split
  · split
    · split
      · simp_all [Result.EndsAtLast, callFailed, failureCode, stepCode, exitError,
          Event.isWrite, Event.isEditor]
      · exact (Insert.editorOrPassword_endsAtLast s env ctx name confirm echo multiline).after
          _ (by simp [Event.isWrite, Event.isEditor])
    · exact (Insert.editorOrPassword_endsAtLast s env ctx name confirm echo multiline).after
        _ (by simp [Event.isWrite, Event.isEditor])
  · exact Insert.editorOrPassword_endsAtLast s env ctx name confirm echo multiline

theorem Insert.fromContent_endsAtLast (s : Action) (env : Env) (ctx : Context)
    (name key : String) (confirm : Option ConfirmFn) (echo multiline force : Bool)
    (fromStdin : Bool) (content : String) :
    (Insert.fromContent s env ctx name key confirm echo multiline force fromStdin
      content).EndsAtLast s env := by
  unfold Insert.fromContent
  split
  · exact Insert.keyBranch_endsAtLast s env name key fromStdin content
  · split
    · exact Insert.stdinBranch_endsAtLast s env name confirm content
    · exact Insert.interactive_endsAtLast s env ctx name confirm echo multiline force

/-- A run of `Insert` with a name is decided by its last call. -/
theorem Insert_endsAtLast (s : Action) (env : Env) (ctx : Context) (c : CliContext)
    (hname : c.Get 0 ≠ "") : (Insert s env ctx c).EndsAtLast s env := by
  unfold Insert
  dsimp only
  rw [if_neg hname]
  split
  · simp [Result.EndsAtLast, callFailed, failureCode, stepCode, exitError,
      Except.toBool, Event.isEditor, *]
  · split
    · split
      · simp [Result.EndsAtLast, callFailed, failureCode, stepCode, exitError,
          Except.toBool, Event.isEditor, Event.isWrite, *]
      · exact (Insert.fromContent_endsAtLast s env ctx _ _ _ _ _ _ _ _).after _
          (by simp [Event.isWrite, Event.isEditor])
    · exact (Insert.fromContent_endsAtLast s env ctx _ _ _ _ _ _ _ _).after _
        (by simp [Event.isWrite, Event.isEditor])

/-- In a run decided by its last call, a store write can only be the last
call. -/
theorem Result.EndsAtLast.write_is_last {s : Action} {env : Env} {r : Result}
    (h : r.EndsAtLast s env) (w : Event) (hw : w ∈ r.trace) (hwr : w.isWrite = true) :
    r.trace.getLast? = some w := by
  obtain ⟨h1, last, hl, -, -⟩ := h
  have htr : r.trace.dropLast ++ [last] = r.trace :=
    List.dropLast_append_getLast? last hl
  rw [← htr, List.mem_append, List.mem_singleton] at hw
  rcases hw with hw | hw
  · rw [h1 w hw] at hwr
    cases hwr
  · rw [hl, hw]

/-- In a run decided by its last call, at most one call is a store write. -/
theorem Result.EndsAtLast.writes_le_one {s : Action} {env : Env} {r : Result}
    (h : r.EndsAtLast s env) : (r.trace.filter Event.isWrite).length ≤ 1 := by
  obtain ⟨h1, last, hl, -, -⟩ := h
  have htr : r.trace.dropLast ++ [last] = r.trace :=
    List.dropLast_append_getLast? last hl
  have h0 : r.trace.dropLast.filter Event.isWrite = [] := by
    rw [List.filter_eq_nil_iff]
    intro e he
    simp [h1 e he]
  rw [← htr, List.filter_append, h0, List.nil_append]
  exact List.length_filter_le _ [last]

/-- The calls of the editor-or-password part are the same whatever confirm
callback is handed on, but for that callback, and none of them belongs to the
overwrite check. -/
theorem Insert.editorOrPassword_trace_confirm (s : Action) (env : Env) (ctx : Context)
    (name : String) (cf cf' : Option ConfirmFn) (echo multiline : Bool) :
    (((Insert.editorOrPassword s env ctx name cf echo multiline).trace.filter
        (fun e => !e.isOverwriteCheck)).map Event.withoutConfirm) =
      (Insert.editorOrPassword s env ctx name cf' echo multiline).trace.map
        Event.withoutConfirm := by
  unfold Insert.editorOrPassword Insert.editorBranch Insert.passwordBranch
  dsimp only
  repeat' split
  all_goals rfl

/-- No call of the editor-or-password part belongs to the overwrite check. -/
theorem Insert.editorOrPassword_no_check (s : Action) (env : Env) (ctx : Context)
    (name : String) (cf : Option ConfirmFn) (echo multiline : Bool) :
    (Insert.editorOrPassword s env ctx name cf echo multiline).trace.all
      (fun e => !e.isOverwriteCheck) = true := by
  unfold Insert.editorOrPassword Insert.editorBranch Insert.passwordBranch
  dsimp only
  repeat' split
  all_goals rfl

/-! ## The input mode of a run -/

/-- C1: when the entry name (first argument) is the empty string, whatever the
key, the flags, the collaborators and the state of standard input, `Insert`
returns the usage error with exit code `ExitNoName` and has made no call at all:
none to the store, no prompt, no editor. -/
theorem Insert_no_name (s : Action) (env : Env) (ctx : Context) (c : CliContext)
    (hname : c.Get 0 = "") :
    Insert s env ctx c =
      ⟨some ⟨ExitCode.ExitNoName, "Usage: " ++ s.Name ++ " insert name"⟩, []⟩ := by
  simp [Insert, hname, exitError]

/-- Witness of C1: no name, a key-less and name-less command line with every flag
set and data piped on standard input. -/
theorem Insert_no_name_witness :
    CliContext.Get ⟨true, true, true, []⟩ 0 = "" ∧
    Insert (sampleAction true true) (sampleEnv 0 "x") ⟨true⟩ ⟨true, true, true, []⟩ =
      ⟨some ⟨ExitCode.ExitNoName, "Usage: gopass insert name"⟩, []⟩ :=
  ⟨rfl, Insert_no_name (sampleAction true true) (sampleEnv 0 "x") ⟨true⟩
    ⟨true, true, true, []⟩ rfl⟩

/-- C3: for a non-empty name with no key, when standard input is piped and the
drained bytes parse to the secret `sec`, the calls `Insert` makes are the stat,
the drain, the parse and one `Store.SetConfirm` of exactly `sec` under the name
with the message "Read secret from STDIN" (its confirm callback absent when
forced); `Insert` returns what that write returns. The store is not asked
whether the name exists and the overwrite question is not asked, whatever the
store holds and whether or not `force` is set. -/
theorem Insert_stdin_document (s : Action) (env : Env) (ctx : Context)
    (c : CliContext) (mode : Nat) (content : String) (sec : Secret)
    (hname : c.Get 0 ≠ "") (hkey : c.Get 1 = "")
    (hstat : env.stdinStat = .ok mode) (hpipe : mode &&& ModeCharDevice = 0)
    (hcopy : env.stdinCopy = .ok content) (hparse : env.Parse content = .ok sec) :
    (Insert s env ctx c).trace =
        [StdinStat, StdinCopy, Parse content,
         StoreSetConfirm (c.Get 0) sec "Read secret from STDIN"
           (if c.force then none else some ConfirmFn.confirmRecipients)] ∧
    (Insert s env ctx c).err =
        (s.Store.SetConfirm (c.Get 0) sec "Read secret from STDIN"
            (if c.force then none else some ConfirmFn.confirmRecipients)).map
          (fun err => ⟨ExitCode.ExitEncrypt,
            "failed to set '" ++ c.Get 0 ++ "': " ++ err⟩) ∧
    (∀ e ∈ (Insert s env ctx c).trace, e.isOverwriteCheck = false) := by
  simp only [Insert, hname, hkey, hstat, hpipe, hcopy, Insert.fromContent,
    Insert.stdinBranch, hparse, exitError, Result.after, if_true, if_false,
    ne_eq, not_true_eq_false]
  cases hw : s.Store.SetConfirm (c.Get 0) sec "Read secret from STDIN"
      (if c.force then none else some ConfirmFn.confirmRecipients) <;>
    simp [Event.isOverwriteCheck]

/-- Witness of C3: the name "mail" exists in the store, `force` is not set, and
the bytes "pw" are piped in. -/
theorem Insert_stdin_document_witness :
    (Insert (sampleAction true false) (sampleEnv 0 "pw") ⟨true⟩
        ⟨false, false, false, ["mail"]⟩).trace =
      [StdinStat, StdinCopy, Parse "pw",
       StoreSetConfirm "mail" ⟨"pw", []⟩ "Read secret from STDIN"
         (some ConfirmFn.confirmRecipients)] :=
  (Insert_stdin_document (sampleAction true false) (sampleEnv 0 "pw") ⟨true⟩
    ⟨false, false, false, ["mail"]⟩ 0 "pw" ⟨"pw", []⟩ (by decide) rfl rfl
    (by decide) rfl rfl).1

/-- C4: for a non-empty name with no key, when standard input is piped and the
drained bytes fail to parse, `Insert` returns an error built from the parse
error, with the name in its message, and the only calls made are the stat, the
drain and the parse: no `Store.Set` and no `Store.SetConfirm`. -/
theorem Insert_stdin_parse_failure (s : Action) (env : Env) (ctx : Context)
    (c : CliContext) (mode : Nat) (content : String) (perr : GoError)
    (hname : c.Get 0 ≠ "") (hkey : c.Get 1 = "")
    (hstat : env.stdinStat = .ok mode) (hpipe : mode &&& ModeCharDevice = 0)
    (hcopy : env.stdinCopy = .ok content) (hparse : env.Parse content = .error perr) :
    Insert s env ctx c =
        ⟨some ⟨ExitCode.ExitEncrypt, "failed to set '" ++ c.Get 0 ++ "': " ++ perr⟩,
          [StdinStat, StdinCopy, Parse content]⟩ ∧
    (∀ e ∈ (Insert s env ctx c).trace, e.isWrite = false) := by
  simp [Insert, hname, hkey, hstat, hpipe, hcopy, Insert.fromContent,
    Insert.stdinBranch, hparse, exitError, Result.after, Event.isWrite]

/-- Witness of C4: the bytes "bad" are piped to `insert mail`. -/
theorem Insert_stdin_parse_failure_witness :
    sampleParse "bad" = .error "malformed" ∧
    Insert (sampleAction true true) (sampleEnv 0 "bad") ⟨true⟩
        ⟨false, false, false, ["mail"]⟩ =
      ⟨some ⟨ExitCode.ExitEncrypt, "failed to set 'mail': malformed"⟩,
        [StdinStat, StdinCopy, Parse "bad"]⟩ :=
  ⟨rfl, (Insert_stdin_parse_failure (sampleAction true true) (sampleEnv 0 "bad")
    ⟨true⟩ ⟨false, false, false, ["mail"]⟩ 0 "bad" "malformed" (by decide) rfl rfl
    (by decide) rfl rfl).1⟩

/-- C5: for a non-empty name that exists in the store, with no key, nothing piped
and `force` not set, when the user answers no to the overwrite question `Insert`
returns the aborted outcome (`ExitAborted`) and the only calls made are the
stat, the existence query and the question: no editor, no password prompt and
no store write, so nothing is stored under the name that was not there before. -/
theorem Insert_overwrite_declined (s : Action) (env : Env) (ctx : Context)
    (c : CliContext) (mode : Nat)
    (hname : c.Get 0 ≠ "") (hkey : c.Get 1 = "")
    (hstat : env.stdinStat = .ok mode) (htty : mode &&& ModeCharDevice ≠ 0)
    (hforce : c.force = false) (hexists : s.Store.Exists (c.Get 0) = true)
    (hno : s.askForConfirmation
      ("An entry already exists for " ++ c.Get 0 ++ ". Overwrite it?") = false) :
    Insert s env ctx c =
        ⟨some ⟨ExitCode.ExitAborted, "not overwriting your current secret"⟩,
          [StdinStat, StoreExists (c.Get 0),
           AskForConfirmation
             ("An entry already exists for " ++ c.Get 0 ++ ". Overwrite it?")]⟩ ∧
    (∀ e ∈ (Insert s env ctx c).trace,
        e.isWrite = false ∧ e.isEditor = false ∧ e.isAskForPassword = false) := by
  simp [Insert, hname, hkey, hstat, htty, hforce, hexists, hno, Insert.fromContent,
    Insert.interactive, exitError, Result.after, Event.isWrite, Event.isEditor,
    Event.isAskForPassword]

/-- Witness of C5: `insert mail --multiline` on a terminal, the name exists and the
user answers no. -/
theorem Insert_overwrite_declined_witness :
    Insert (sampleAction true false) (sampleEnv ModeCharDevice "") ⟨true⟩
        ⟨false, true, false, ["mail"]⟩ =
      ⟨some ⟨ExitCode.ExitAborted, "not overwriting your current secret"⟩,
        [StdinStat, StoreExists "mail",
         AskForConfirmation "An entry already exists for mail. Overwrite it?"]⟩ :=
  (Insert_overwrite_declined (sampleAction true false) (sampleEnv ModeCharDevice "")
    ⟨true⟩ ⟨false, true, false, ["mail"]⟩ ModeCharDevice (by decide) rfl rfl
    (by decide) rfl rfl rfl).1

/-- C2: for a non-empty name and a non-empty key `k`, with nothing piped and `v`
the string the user typed at the prompt, when the load of an existing entry,
`SetValue` and `Store.Set` succeed (`SetValue` doing what the spec says of
`patchField`), `Insert` returns no error and writes, once and with `Store.Set`,
a secret with the primary line of the base, `k` bound to `v` and every other
field bound as in the base; the base is the stored secret when the name
exists and the blank secret otherwise, in which case the secret written is the
empty primary line with the single field `k = v`. -/
theorem Insert_key_prompted (s : Action) (env : Env) (ctx : Context)
    (c : CliContext) (mode : Nat) (v : String) (base : Secret)
    (hname : c.Get 0 ≠ "") (hkey : c.Get 1 ≠ "")
    (hstat : env.stdinStat = .ok mode) (htty : mode &&& ModeCharDevice ≠ 0)
    (hask : s.askForString (c.Get 0 ++ ":" ++ c.Get 1) "" = .ok v)
    (hbase : if s.Store.Exists (c.Get 0) = true then s.Store.Get (c.Get 0) = .ok base
      else base = Secret.newFromPassword "")
    (hset : env.SetValue base (c.Get 1) v = .ok (base.patchField (c.Get 1) v))
    (hstore : s.Store.Set (c.Get 0) (base.patchField (c.Get 1) v)
      "Inserted YAML value from STDIN" = none) :
    ∃ written : Secret,
      (Insert s env ctx c).err = none ∧
      (Insert s env ctx c).trace.filter Event.isWrite =
        [StoreSet (c.Get 0) written "Inserted YAML value from STDIN"] ∧
      written.password = base.password ∧
      written.value (c.Get 1) = some v ∧
      (∀ k', k' ≠ c.Get 1 → written.value k' = base.value k') ∧
      (s.Store.Exists (c.Get 0) = false → written = ⟨"", [(c.Get 1, v)]⟩) := by
  refine ⟨base.patchField (c.Get 1) v, ?_, ?_, rfl, ?_, ?_, ?_⟩
  · by_cases hex : s.Store.Exists (c.Get 0) = true
    · simp only [hex, if_true] at hbase
      simp [Insert, hname, hkey, hstat, htty, hask, Insert.fromContent,
        Insert.keyBranch, Insert.loadAndStore, Insert.setAndStore, hex, hbase, hset,
        hstore, Result.after]
    · simp only [hex, if_false] at hbase
      subst hbase
      simp [Insert, hname, hkey, hstat, htty, hask, Insert.fromContent,
        Insert.keyBranch, Insert.loadAndStore, Insert.setAndStore, hex, hset,
        hstore, Result.after]
  · by_cases hex : s.Store.Exists (c.Get 0) = true
    · simp only [hex, if_true] at hbase
      simp [Insert, hname, hkey, hstat, htty, hask, Insert.fromContent,
        Insert.keyBranch, Insert.loadAndStore, Insert.setAndStore, hex, hbase, hset,
        hstore, Result.after, Event.isWrite, List.filter_cons]
    · simp only [hex, if_false] at hbase
      subst hbase
      simp [Insert, hname, hkey, hstat, htty, hask, Insert.fromContent,
        Insert.keyBranch, Insert.loadAndStore, Insert.setAndStore, hex, hset,
        hstore, Result.after, Event.isWrite, List.filter_cons]
  · exact find_setField_same base.fields (c.Get 1) v
  · intro k' hk'
    exact find_setField_other base.fields (c.Get 1) v k' hk'
  · intro hex
    simp only [hex, Bool.false_eq_true, if_false] at hbase
    subst hbase
    rfl

/-- Witness of C2: `insert mail url` on a terminal, the name exists with primary
line "hunter2" and field `user = bob`, the user types "alice". -/
theorem Insert_key_prompted_witness :
    ∃ written : Secret,
      (Insert (sampleAction true true) (sampleEnv ModeCharDevice "") ⟨true⟩
        ⟨false, false, false, ["mail", "url"]⟩).err = none ∧
      (Insert (sampleAction true true) (sampleEnv ModeCharDevice "") ⟨true⟩
        ⟨false, false, false, ["mail", "url"]⟩).trace.filter Event.isWrite =
        [StoreSet "mail" written "Inserted YAML value from STDIN"] ∧
      written.password = "hunter2" ∧
      written.value "url" = some "alice" ∧
      (∀ k', k' ≠ "url" → written.value k' = sampleSecret.value k') ∧
      (true = false → written = ⟨"", [("url", "alice")]⟩) :=
  Insert_key_prompted (sampleAction true true) (sampleEnv ModeCharDevice "") ⟨true⟩
    ⟨false, false, false, ["mail", "url"]⟩ ModeCharDevice "alice" sampleSecret
    (by decide) (by decide) rfl (by decide) rfl rfl rfl rfl

/-- C7: whenever `Insert` reaches a confirmable store write (`Store.SetConfirm`,
in the piped-document, editor and password branches), the recipient-confirmation
callback it passes is absent when `force` is set and is `confirmRecipients` when
it is not; and a forced `Insert` never asks the overwrite question either. -/
theorem Insert_confirm_callback (s : Action) (env : Env) (ctx : Context)
    (c : CliContext) (name : String) (sec : Secret) (msg : String)
    (cf : Option ConfirmFn)
    (hwrite : StoreSetConfirm name sec msg cf ∈ (Insert s env ctx c).trace) :
    cf = (if c.force = true then none else some ConfirmFn.confirmRecipients) ∧
    (c.force = true →
      ∀ e ∈ (Insert s env ctx c).trace, e.isAskForConfirmation = false) := by
  revert hwrite
  unfold Insert
  dsimp only
  repeat' (first
    | split
    | (dsimp only)
    | (unfold Insert.fromContent)
    | (unfold Insert.keyBranch)
    | (unfold Insert.loadAndStore)
    | (unfold Insert.setAndStore)
    | (unfold Insert.stdinBranch)
    | (unfold Insert.interactive)
    | (unfold Insert.editorOrPassword)
    | (unfold Insert.editorBranch)
    | (unfold Insert.passwordBranch))
  all_goals simp_all [Event.isAskForConfirmation, exitError]

/-- Witness of C7: a forced `insert mail --multiline --force` on a terminal
writes the edited text with no confirm callback. -/
theorem Insert_confirm_callback_witness :
    StoreSetConfirm "mail" ⟨"edited", []⟩ "Inserted user supplied password with vi" none ∈
      (Insert (sampleAction true false) (sampleEnv ModeCharDevice "") ⟨true⟩
        ⟨false, true, true, ["mail"]⟩).trace ∧
    (none : Option ConfirmFn) =
      (if (CliContext.mk false true true ["mail"]).force = true then none
        else some ConfirmFn.confirmRecipients) :=
  ⟨by decide,
    (Insert_confirm_callback (sampleAction true false) (sampleEnv ModeCharDevice "")
      ⟨true⟩ ⟨false, true, true, ["mail"]⟩ "mail" ⟨"edited", []⟩
      "Inserted user supplied password with vi" none (by decide)).1⟩

/-- C10: every run of `Insert` issues at most one store write (`Store.Set` or
`Store.SetConfirm`, so never both); a write, when there is one, is the last call
of the run; `Insert` returns no error exactly when it issued a write and that
write returned no error; and when `Insert` returns an error or the aborted
outcome, any write it issued is one that failed, so every other error is
returned before any write is issued. -/
theorem Insert_single_write (s : Action) (env : Env) (ctx : Context)
    (c : CliContext) :
    ((Insert s env ctx c).trace.filter Event.isWrite).length ≤ 1 ∧
    (∀ w ∈ (Insert s env ctx c).trace, w.isWrite = true →
      (Insert s env ctx c).trace.getLast? = some w) ∧
    ((Insert s env ctx c).err = none ↔
      ∃ w ∈ (Insert s env ctx c).trace, w.isWrite = true ∧ callFailed s env w = false) ∧
    (∀ e, (Insert s env ctx c).err = some e →
      ∀ w ∈ (Insert s env ctx c).trace, w.isWrite = true → callFailed s env w = true) := by
  by_cases hname : c.Get 0 = ""
  · have hrun : Insert s env ctx c =
        ⟨some ⟨ExitCode.ExitNoName, "Usage: " ++ s.Name ++ " insert name"⟩, []⟩ := by
      simp [Insert, hname, exitError]
    rw [hrun]
    simp
  · have h := Insert_endsAtLast s env ctx c hname
    refine ⟨h.writes_le_one, h.write_is_last, ?_, ?_⟩
    · obtain ⟨-, last, hl, h2, h3⟩ := id h
      constructor
      · intro hnone
        have hmem : last ∈ (Insert s env ctx c).trace := List.mem_of_getLast?_eq_some hl
        exact ⟨last, hmem, h2 hnone⟩
      · rintro ⟨w, hw, hwr, hok⟩
        have hwl := h.write_is_last w hw hwr
        rw [hl] at hwl
        cases hwl
        cases herr : (Insert s env ctx c).err with
        | none => rfl
        | some e =>
            rw [(h3 e herr).1] at hok
            cases hok
    · intro e herr w hw hwr
      obtain ⟨-, last, hl, -, h3⟩ := id h
      have hwl := h.write_is_last w hw hwr
      rw [hl] at hwl
      cases hwl
      exact (h3 e herr).1

/-- C6: for a non-empty name with no key and nothing piped, when `force` is set
`Insert` goes from the stat of standard input straight to the editor or the
password prompt: no call of the run is the existence query or the overwrite
question, so the outcome is the same whatever the store answers about
existence and whatever the user would answer; and an unforced `Insert` on a name
that does not exist makes the same calls, but for its existence query and the
confirm callback it hands to the write. -/
theorem Insert_force_skips_overwrite_check (s : Action) (env : Env) (ctx : Context)
    (c : CliContext) (mode : Nat)
    (hname : c.Get 0 ≠ "") (hkey : c.Get 1 = "")
    (hstat : env.stdinStat = .ok mode) (htty : mode &&& ModeCharDevice ≠ 0)
    (hforce : c.force = true) :
    Insert s env ctx c =
        (Insert.editorOrPassword s env ctx (c.Get 0) none c.echo c.multiline).after
          [StdinStat] ∧
    (∀ e ∈ (Insert s env ctx c).trace, e.isOverwriteCheck = false) ∧
    (∀ (ex : String → Bool) (ask : String → Bool),
      Insert { s with Store := { s.Store with Exists := ex }, askForConfirmation := ask }
        env ctx c = Insert s env ctx c) ∧
    (s.Store.Exists (c.Get 0) = false →
      ((Insert s env ctx { c with force := false }).trace.filter
          (fun e => !e.isOverwriteCheck)).map Event.withoutConfirm =
        (Insert s env ctx c).trace.map Event.withoutConfirm) := by
  have hrun : Insert s env ctx c =
      (Insert.editorOrPassword s env ctx (c.Get 0) none c.echo c.multiline).after
        [StdinStat] := by
    simp [Insert, hname, hkey, hstat, htty, hforce, Insert.fromContent,
      Insert.interactive]
  refine ⟨hrun, ?_, ?_, ?_⟩
  · intro e he
    rw [hrun, Result.after_trace, List.mem_append, List.mem_singleton] at he
    rcases he with he | he
    · rw [he]
      rfl
    · have := Insert.editorOrPassword_no_check s env ctx (c.Get 0) none c.echo c.multiline
      rw [List.all_eq_true] at this
      simpa using this e he
  · intro ex ask
    rw [hrun]
    simp [Insert, hname, hkey, hstat, htty, hforce, Insert.fromContent,
      Insert.interactive, Insert.editorOrPassword, Insert.editorBranch,
      Insert.passwordBranch]
  · intro hex
    have hrun' : Insert s env ctx { c with force := false } =
        (Insert.editorOrPassword s env ctx (c.Get 0) (some ConfirmFn.confirmRecipients)
          c.echo c.multiline).after [StdinStat, StoreExists (c.Get 0)] := by
      have hname' : CliContext.Get { c with force := false } 0 = c.Get 0 := rfl
      have hkey' : CliContext.Get { c with force := false } 1 = c.Get 1 := rfl
      simp [Insert, hname', hkey', hname, hkey, hstat, htty, hex, Insert.fromContent,
        Insert.interactive, Result.after]
    rw [hrun, hrun']
    simp only [Result.after_trace, List.filter_append, List.map_append]
    rw [Insert.editorOrPassword_trace_confirm s env ctx (c.Get 0)
      (some ConfirmFn.confirmRecipients) none c.echo c.multiline]
    rfl

/-- Witness of C6: `insert mail --force` on a terminal, the name exists and the
user would answer no. -/
theorem Insert_force_skips_overwrite_check_witness :
    Insert (sampleAction true false) (sampleEnv ModeCharDevice "") ⟨true⟩
        ⟨false, false, true, ["mail"]⟩ =
      ⟨none, [StdinStat, AskForPassword "mail" none, PrintAuditResult "s3cret",
        StoreSetConfirm "mail" ⟨"s3cret", []⟩ "Inserted user supplied password" none]⟩ :=
  (Insert_force_skips_overwrite_check (sampleAction true false)
    (sampleEnv ModeCharDevice "") ⟨true⟩ ⟨false, false, true, ["mail"]⟩ ModeCharDevice
    (by decide) rfl rfl (by decide) rfl).1

end Gopass
